import Mathlib

/-
Verification development for the usb-serial-conduit firmware core.

The Rust sources are shallowly embedded: machine integers become Nat (with
explicit reduction modulo a power of two where the source can wrap), byte
buffers become List Nat, interior-mutability cells become explicit state
passing, and a Rust `panic` is made explicit through the `Outcome` type
below.  The definitions follow the structure of the source files
(src/types.rs, src/ref_counted.rs, src/run_multiple.rs, src/usb.rs).
-/

/-- Result of running a piece of Rust code that can abort: `Outcome.panic`
models a Rust panic (program halt), `Outcome.value a` a normal return. -/
inductive Outcome (α : Type) where
  | panic : Outcome α
  | value : α → Outcome α
deriving DecidableEq, Repr

/-- Map over the normal-return case of an `Outcome`, propagating a halt. -/
def Outcome.map {α β : Type} (f : α → β) : Outcome α → Outcome β
  | Outcome.panic => Outcome.panic
  | Outcome.value a => Outcome.value (f a)

/- ===== src/types.rs ===== -/

/-- Rust enum `StopBits` (one, one-and-a-half or two stop bits). -/
inductive StopBits where
  | one
  | oneAndHalf
  | two
deriving DecidableEq, Repr

/-- The `repr(u8)` discriminant of `StopBits` (used by `as u8` casts). -/
def StopBits.toU8 : StopBits → Nat
  | StopBits.one => 0
  | StopBits.oneAndHalf => 1
  | StopBits.two => 2

/-- Embedding of `impl From<u8> for StopBits`: matches the discriminant and
panics (halts) on any value other than 0, 1 or 2. -/
def StopBits.fromU8 (value : Nat) : Outcome StopBits :=
  if value = 0 then Outcome.value StopBits.one
  else if value = 1 then Outcome.value StopBits.oneAndHalf
  else if value = 2 then Outcome.value StopBits.two
  else Outcome.panic

/-- Rust enum `ParityType`. -/
inductive ParityType where
  | none
  | odd
  | even
  | mark
  | space
deriving DecidableEq, Repr

/-- The `repr(u8)` discriminant of `ParityType`. -/
def ParityType.toU8 : ParityType → Nat
  | ParityType.none => 0
  | ParityType.odd => 1
  | ParityType.even => 2
  | ParityType.mark => 3
  | ParityType.space => 4

/-- Embedding of `impl From<u8> for ParityType`: matches the discriminant
and panics (halts) on any value other than 0..4. -/
def ParityType.fromU8 (value : Nat) : Outcome ParityType :=
  if value = 0 then Outcome.value ParityType.none
  else if value = 1 then Outcome.value ParityType.odd
  else if value = 2 then Outcome.value ParityType.even
  else if value = 3 then Outcome.value ParityType.mark
  else if value = 4 then Outcome.value ParityType.space
  else Outcome.panic

/-- Rust struct `SerialEncoding`: baud rate, stop bits, parity, data bits. -/
structure SerialEncoding where
  baudRate : Nat
  stopBits : StopBits
  parityType : ParityType
  dataBits : Nat
deriving DecidableEq, Repr

/-- Embedding of `impl Default for SerialEncoding`: 115200 baud, one stop
bit, no parity, 8 data bits. -/
def SerialEncoding.default : SerialEncoding :=
  { baudRate := 115200
    stopBits := StopBits.one
    parityType := ParityType.none
    dataBits := 8 }

/-- Little-endian reassembly of a u32 from four bytes
(`u32::from_le_bytes`). -/
def u32FromLeBytes (b0 b1 b2 b3 : Nat) : Nat :=
  b0 + 256 * b1 + 65536 * b2 + 16777216 * b3

/-- Little-endian decomposition of a u32 into four bytes
(`u32::to_le_bytes`). -/
def u32ToLeBytes (v : Nat) : List Nat :=
  [v % 256, v / 256 % 256, v / 65536 % 256, v / 16777216 % 256]

/-- Little-endian decomposition of a u16 into two bytes
(`u16::to_le_bytes`). -/
def u16ToLeBytes (v : Nat) : List Nat :=
  [v % 256, v / 256 % 256]

/-- Embedding of `copy_from_slice` into a sub-range of a buffer: overwrite
the entries of `dst` starting at index `start` with the entries of `src`. -/
def copyInto : List Nat → Nat → List Nat → List Nat
  | dst, _, [] => dst
  | [], _, _ => []
  | _ :: ds, 0, s :: ss => s :: copyInto ds 0 ss
  | d :: ds, n + 1, src => d :: copyInto ds n src

/-- Embedding of `SerialEncoding::fromData`: requires at least 7 bytes
(returning `none` otherwise), then reads the baud rate from bytes 0..3
(little endian), the stop bits from byte 4, the parity from byte 5 and the
data bits from byte 6.  An invalid stop-bits or parity byte propagates the
panic of the corresponding `From<u8>` conversion. -/
def SerialEncoding.fromData (data : List Nat) : Outcome (Option SerialEncoding) :=
  if data.length < 7 then Outcome.value none
  else
    match StopBits.fromU8 (data.getD 4 0) with
    | Outcome.panic => Outcome.panic
    | Outcome.value sb =>
      match ParityType.fromU8 (data.getD 5 0) with
      | Outcome.panic => Outcome.panic
      | Outcome.value pt =>
        Outcome.value (some
          { baudRate := u32FromLeBytes (data.getD 0 0) (data.getD 1 0)
              (data.getD 2 0) (data.getD 3 0)
            stopBits := sb
            parityType := pt
            dataBits := data.getD 6 0 })

/-- Embedding of `SerialEncoding::toData`: requires a buffer of at least
7 bytes (returning it untouched with result `none` otherwise), then writes
the four little-endian baud-rate bytes, the stop-bits discriminant, the
parity discriminant and the data bits into bytes 0..6 and reports length 7.
The returned list is the mutated buffer, paired with the Option result. -/
def SerialEncoding.toData (e : SerialEncoding) (data : List Nat) :
    List Nat × Option Nat :=
  if data.length < 7 then (data, none)
  else
    let d0 := copyInto data 0 (u32ToLeBytes e.baudRate)
    let d1 := d0.set 4 e.stopBits.toU8
    let d2 := d1.set 5 e.parityType.toU8
    let d3 := d2.set 6 e.dataBits
    (d3, some 7)

/-- Rust enum `TransmitRequest`: declared with no variants at all, so the
type is uninhabited. -/
inductive TransmitRequest : Type

/-- Rust enum `ReceiveRequest`: the only variant carries a new encoding. -/
inductive ReceiveRequest where
  | changeEncoding : SerialEncoding → ReceiveRequest
deriving DecidableEq, Repr

/- ===== src/run_multiple.rs ===== -/

/-- Rust enum `MaybeDone`: either a future still to complete (here tagged
with how many times it has been polled so far, so that un-polled futures
are observable) or the cached output of a completed future. -/
inductive MaybeDone (α : Type) where
  | future : Nat → MaybeDone α
  | done : α → MaybeDone α
deriving DecidableEq, Repr

/-- Embedding of `MaybeDone::poll`.  A deterministic future is modelled by
its script: `script n` is the outcome of its n-th poll (`none` = Pending).
Polling a not-yet-done future consumes one script step; a completed value
is cached and reports `true` without polling the inner future again. -/
def MaybeDone.poll {α : Type} (script : Nat → Option α) :
    MaybeDone α → MaybeDone α × Bool
  | MaybeDone.future n =>
    match script n with
    | some a => (MaybeDone.done a, true)
    | none => (MaybeDone.future (n + 1), false)
  | MaybeDone.done a => (MaybeDone.done a, true)

/-- Rust struct `RunTwo`: the pair of `MaybeDone` sub-futures. -/
structure RunTwo (α β : Type) where
  future1 : MaybeDone α
  future2 : MaybeDone β
deriving DecidableEq, Repr

/-- Embedding of `RunTwo::new`: both sub-futures fresh (never polled). -/
def RunTwo.new {α β : Type} : RunTwo α β :=
  { future1 := MaybeDone.future 0, future2 := MaybeDone.future 0 }

/-- Embedding of `RunTwo::poll`.  The source computes
`poll(future1) && poll(future2)`; the Rust `&&` operator short-circuits,
so `future2` is polled only when `poll(future1)` reported `true`.  Returns
the updated state and whether `Poll::Ready` was returned. -/
def RunTwo.poll {α β : Type} (s1 : Nat → Option α) (s2 : Nat → Option β)
    (st : RunTwo α β) : RunTwo α β × Bool :=
  let r1 := MaybeDone.poll s1 st.future1
  if r1.2 then
    let r2 := MaybeDone.poll s2 st.future2
    ({ future1 := r1.1, future2 := r2.1 }, r2.2)
  else
    ({ future1 := r1.1, future2 := st.future2 }, false)

/- ===== src/ref_counted.rs ===== -/

/-- The firmware targets a 32-bit ARM Cortex-M, so the Rust usize (the
type of the reference count) is 32 bits wide. -/
def USIZE_BITS : Nat := 32

/-- Control block of one pool slot (`struct RcInner`): the strong
reference count, the borrow counter (0 = unborrowed, negative = exclusive
borrow live) and whether the payload is still alive (its destructor has
not been run). -/
structure RcInner where
  refCount : Nat
  borrowCount : Int
  live : Bool
deriving DecidableEq, Repr

/-- Embedding of `RcInner::incCount`: wrapping add of one on the usize
count, then a panic (halt) when the wrapped result is zero. -/
def RcInner.incCount (count : Nat) : Outcome Nat :=
  let c := (count + 1) % 2 ^ USIZE_BITS
  if c = 0 then Outcome.panic else Outcome.value c

/-- Embedding of `RcInner::decCount`: subtract one from the count. -/
def RcInner.decCount (count : Nat) : Nat :=
  count - 1

/-- Fixed-capacity reference-counted pool (`struct RcPool<T, N>`): the
slot array (a `none` entry is still uninitialised) plus the allocation
cursor `allocated`. -/
structure RcPool where
  capacity : Nat
  pool : List (Option RcInner)
  allocated : Nat
deriving DecidableEq, Repr

/-- Embedding of `RcPool::new`: all slots uninitialised, cursor zero. -/
def RcPool.new (N : Nat) : RcPool :=
  { capacity := N, pool := List.replicate N none, allocated := 0 }

/-- Embedding of `RcPool::alloc`: when `allocated == N` the allocation
fails with `none`; otherwise the slot at index `allocated` is written with
reference count 1 and an unborrowed borrow counter, and a handle to that
index is returned.  Note: exactly as in the source, the `allocated` cursor
is never advanced. -/
def RcPool.alloc (p : RcPool) : Option Nat × RcPool :=
  if p.allocated = p.capacity then (none, p)
  else
    let slot : RcInner := { refCount := 1, borrowCount := 0, live := true }
    (some p.allocated, { p with pool := p.pool.set p.allocated (some slot) })

/-- Embedding of `impl Clone for Rc`: increment the reference count of the
slot, propagating the saturation panic of `incCount`. -/
def Rc.clone (s : RcInner) : Outcome RcInner :=
  match RcInner.incCount s.refCount with
  | Outcome.panic => Outcome.panic
  | Outcome.value c => Outcome.value { s with refCount := c }

/-- Embedding of `impl Drop for Rc`: decrement the reference count and,
when it has reached zero, run the payload destructor in place (the slot
stops being live). -/
def Rc.drop (s : RcInner) : RcInner :=
  let c := RcInner.decCount s.refCount
  if c = 0 then { s with refCount := c, live := false }
  else { s with refCount := c }

/-- Embedding of `BorrowRefMut::new`: succeeds only when the borrow
counter is exactly UNUSED (0), setting it to UNUSED - 1; any other value
yields `none`. -/
def BorrowRefMut.new (borrow : Int) : Option Int :=
  if borrow = 0 then some (0 - 1) else none

/-- Embedding of `impl Drop for BorrowRefMut`: releasing the exclusive
borrow adds one back to the borrow counter. -/
def BorrowRefMut.drop (borrow : Int) : Int :=
  borrow + 1

/-- Embedding of `Rc::borrow`: the source wraps the raw value pointer in a
`Ref` unconditionally.  It neither checks nor modifies the borrow counter,
and the returned `Ref` has no release hook, so the slot state is returned
unchanged and no failure is possible. -/
def Rc.borrow (s : RcInner) : Outcome RcInner :=
  Outcome.value s

/-- Embedding of `Rc::tryBorrowMut`: delegates to `BorrowRefMut::new`;
on success the slot carries the updated (negative) borrow counter, on
failure the result is `none` (a `BorrowMutError`). -/
def Rc.tryBorrowMut (s : RcInner) : Option RcInner :=
  match BorrowRefMut.new s.borrowCount with
  | some b => some { s with borrowCount := b }
  | none => none

/-- Embedding of `Rc::borrowMut`: the panicking wrapper around
`tryBorrowMut`. -/
def Rc.borrowMut (s : RcInner) : Outcome RcInner :=
  match Rc.tryBorrowMut s with
  | some s2 => Outcome.value s2
  | none => Outcome.panic

/-- Release of a live exclusive borrow guard (`BorrowRefMut` going out of
scope): the borrow counter is incremented back. -/
def Rc.releaseMut (s : RcInner) : RcInner :=
  { s with borrowCount := BorrowRefMut.drop s.borrowCount }

/- ===== src/usb.rs ===== -/

/-- Recipient field of a USB control request (embassy-usb
`control::Recipient`). -/
inductive Recipient where
  | device
  | interface
  | endpoint
  | other
deriving DecidableEq, Repr

/-- Type field of a USB control request (embassy-usb
`control::RequestType`). -/
inductive RequestType where
  | standard
  | classType
  | vendor
deriving DecidableEq, Repr

/-- A USB control request (embassy-usb `control::Request`), with the
fields the handler inspects. -/
structure Request where
  recipient : Recipient
  requestType : RequestType
  index : Nat
  value : Nat
  request : Nat
deriving DecidableEq, Repr

/-- Rust enum `CdcRequest` with its `repr(u8)` codes 0x20..0x22. -/
inductive CdcRequest where
  | setLineCoding
  | getLineCoding
  | setControlLineState
deriving DecidableEq, Repr

/-- Embedding of `impl From<u8> for CdcRequest`: matches 0x20, 0x21 and
0x22 and panics (halts) on every other request code. -/
def CdcRequest.fromU8 (value : Nat) : Outcome CdcRequest :=
  if value = 0x20 then Outcome.value CdcRequest.setLineCoding
  else if value = 0x21 then Outcome.value CdcRequest.getLineCoding
  else if value = 0x22 then Outcome.value CdcRequest.setControlLineState
  else Outcome.panic

/-- Rust enum `CdcNotification` (only `SerialState = 0x20`). -/
inductive CdcNotification where
  | serialState
deriving DecidableEq, Repr

/-- The `repr(u8)` discriminant of `CdcNotification`. -/
def CdcNotification.toU8 : CdcNotification → Nat
  | CdcNotification.serialState => 0x20

/-- Embedding of `CdcNotification::asMessage`: builds the 10-byte
SerialState message: header `0xA1`, the notification code, then the
little-endian words 0, the interface number, 2 (payload length) and the
constant state bitmask 3 (RTS and DTR), each written with
`copy_from_slice` over the zero-initialised tail. -/
def CdcNotification.asMessage (n : CdcNotification) (interface : Nat) :
    List Nat :=
  match n with
  | CdcNotification.serialState =>
    let m0 : List Nat :=
      [0xa1, CdcNotification.serialState.toU8, 0, 0, 0, 0, 0, 0, 0, 0]
    let m1 := copyInto m0 2 (u16ToLeBytes 0)
    let m2 := copyInto m1 4 (u16ToLeBytes interface)
    let m3 := copyInto m2 6 (u16ToLeBytes 2)
    copyInto m3 8 (u16ToLeBytes 3)

/-- State of `struct SerialHandlerInner` relevant to the control plane:
the assigned control interface number, the current encoding cell, and the
two latest-value signals (modelled as Option slots: `some` = signalled
and not yet consumed). -/
structure SerialHandlerInner where
  controlInterface : Nat
  encoding : SerialEncoding
  encodingUpdate : Option SerialEncoding
  stateUpdate : Option Nat
deriving DecidableEq, Repr

/-- Embedding of `SerialHandler::new`: control interface sentinel 255,
default encoding, no signal pending. -/
def SerialHandlerInner.new : SerialHandlerInner :=
  { controlInterface := 255
    encoding := SerialEncoding.default
    encodingUpdate := none
    stateUpdate := none }

/-- Embedding of `SerialHandlerInner::controlLineState`: latch the state
word into the state-update signal (overwrite-on-write). -/
def SerialHandlerInner.controlLineState (s : SerialHandlerInner)
    (state : Nat) : SerialHandlerInner :=
  { s with stateUpdate := some state }

/-- Embedding of `SerialHandlerInner::encodingToData`: serialise the
current encoding into the caller buffer. -/
def SerialHandlerInner.encodingToData (s : SerialHandlerInner)
    (data : List Nat) : List Nat × Option Nat :=
  s.encoding.toData data

/-- Embedding of `SerialHandlerInner::encodingFromData`: parse the buffer
and, on success, raise the encoding-update signal with the parsed value.
A too-short buffer yields `none` (not handled); an invalid stop-bits or
parity byte propagates the parse panic. -/
def SerialHandlerInner.encodingFromData (s : SerialHandlerInner)
    (data : List Nat) : Outcome (Option SerialHandlerInner) :=
  match SerialEncoding.fromData data with
  | Outcome.panic => Outcome.panic
  | Outcome.value none => Outcome.value none
  | Outcome.value (some e) =>
    Outcome.value (some { s with encodingUpdate := some e })

/-- Embedding of `SerialHandler::control_in` (the synchronous IN control
callback).  A request whose recipient is not interface, whose type is not
class, or whose index differs from the assigned control interface is not
handled (`none`), leaving the buffer untouched.  Otherwise the request
code is converted through `CdcRequest::from` (panicking on unknown codes);
`GetLineCoding` serialises the current encoding into the buffer and
accepts the written prefix, while the other codes are not handled.  The
result pairs the response (the accepted bytes, when any) with the buffer
after the call. -/
def SerialHandler.control_in (s : SerialHandlerInner) (packet : Request)
    (data : List Nat) : Outcome (Option (List Nat) × List Nat) :=
  if packet.recipient ≠ Recipient.interface ∨
      packet.requestType ≠ RequestType.classType ∨
      packet.index ≠ s.controlInterface then
    Outcome.value (none, data)
  else
    match CdcRequest.fromU8 packet.request with
    | Outcome.panic => Outcome.panic
    | Outcome.value CdcRequest.getLineCoding =>
      let r := s.encodingToData data
      Outcome.value (r.2.map (fun length => r.1.take length), r.1)
    | Outcome.value _ => Outcome.value (none, data)

/-- The response of `control_out`: the source only ever answers
`OutResponse::Accepted`. -/
inductive OutResponse where
  | accepted
deriving DecidableEq, Repr

/-- Embedding of `SerialHandler::control_out` (the synchronous OUT control
callback).  The same recipient/type/index filter applies; then
`SetControlLineState` latches the value word and accepts,
`SetLineCoding` parses the payload (accepting on success, not handled on a
short buffer, halting on an invalid field byte), and `GetLineCoding` is
not handled on the OUT path.  The result pairs the response with the
handler state after the call. -/
def SerialHandler.control_out (s : SerialHandlerInner) (packet : Request)
    (data : List Nat) : Outcome (Option OutResponse × SerialHandlerInner) :=
  if packet.recipient ≠ Recipient.interface ∨
      packet.requestType ≠ RequestType.classType ∨
      packet.index ≠ s.controlInterface then
    Outcome.value (none, s)
  else
    match CdcRequest.fromU8 packet.request with
    | Outcome.panic => Outcome.panic
    | Outcome.value CdcRequest.setControlLineState =>
      Outcome.value (some OutResponse.accepted, s.controlLineState packet.value)
    | Outcome.value CdcRequest.setLineCoding =>
      match s.encodingFromData data with
      | Outcome.panic => Outcome.panic
      | Outcome.value none => Outcome.value (none, s)
      | Outcome.value (some s2) => Outcome.value (some OutResponse.accepted, s2)
    | Outcome.value CdcRequest.getLineCoding => Outcome.value (none, s)

/-- The three-way select result used by `SerialHandlerInner::run`
(embassy `Either3`): first the encoding-update signal, second the
control-line-state signal, third the inbound transmit channel. -/
inductive Either3 (α β γ : Type) where
  | first : α → Either3 α β γ
  | second : β → Either3 α β γ
  | third : γ → Either3 α β γ

/-- Whether a select result is the third branch. -/
def Either3.isThird {α β γ : Type} : Either3 α β γ → Bool
  | Either3.third _ => true
  | _ => false

/-- One iteration of the body of `SerialHandlerInner::run`, given the
select3 outcome: on an encoding update the new encoding is stored in the
shared cell and a `ChangeEncoding` request is emitted towards the UART
task; on a state update the 10-byte SerialState notification is emitted
towards the interrupt endpoint; the third branch (a transmit-channel
message) has an empty body.  The result is the updated state, the message
sent on the receive channel (if any) and the notification written (if
any). -/
def SerialHandlerInner.runStep (s : SerialHandlerInner)
    (event : Either3 SerialEncoding Nat TransmitRequest) :
    SerialHandlerInner × Option ReceiveRequest × Option (List Nat) :=
  match event with
  | Either3.first encoding =>
    ({ s with encoding := encoding, encodingUpdate := none },
      some (ReceiveRequest.changeEncoding encoding), none)
  | Either3.second _ =>
    ({ s with stateUpdate := none }, none,
      some (CdcNotification.serialState.asMessage s.controlInterface))
  | Either3.third _ => (s, none, none)

/-- The run loop consuming a pending encoding-update signal: when the
signal slot is full, the loop wakes on its first select branch, stores the
encoding into the shared cell and forwards a `ChangeEncoding` request;
when it is empty the wait suspends and nothing happens. -/
def SerialHandlerInner.processEncodingSignal (s : SerialHandlerInner) :
    SerialHandlerInner × Option ReceiveRequest :=
  match s.encodingUpdate with
  | some e =>
    ({ s with encoding := e, encodingUpdate := none },
      some (ReceiveRequest.changeEncoding e))
  | none => (s, none)

/-- A sequence of `SetLineCoding` data stages, each followed by the run
loop consuming the raised encoding-update signal (the composition of
`encodingFromData` and `processEncodingSignal` from the source).  A
payload the parser rejects as too short leaves the state unchanged; an
invalid field byte halts, as in the source. -/
def execSetLineCodings (s : SerialHandlerInner) :
    List (List Nat) → Outcome SerialHandlerInner
  | [] => Outcome.value s
  | data :: rest =>
    match s.encodingFromData data with
    | Outcome.panic => Outcome.panic
    | Outcome.value none => execSetLineCodings s rest
    | Outcome.value (some s2) =>
      execSetLineCodings (SerialHandlerInner.processEncodingSignal s2).1 rest

/-- Well-formedness of a 7-byte line-coding buffer: exactly 7 bytes, each
a byte value, with a representable stop-bits byte (0..2) and parity byte
(0..4). -/
def wellFormed7 (data : List Nat) : Prop :=
  data.length = 7 ∧ (∀ b ∈ data, b < 256) ∧
    (data.getD 4 0 = 0 ∨ data.getD 4 0 = 1 ∨ data.getD 4 0 = 2) ∧
    (data.getD 5 0 = 0 ∨ data.getD 5 0 = 1 ∨ data.getD 5 0 = 2 ∨
      data.getD 5 0 = 3 ∨ data.getD 5 0 = 4)

instance (data : List Nat) : Decidable (wellFormed7 data) := by
  unfold wellFormed7
  infer_instance

/-- A class-type, interface-recipient GetLineCoding request addressed to
the fresh handler sentinel interface 255. -/
def getLineCodingPacket : Request :=
  { recipient := Recipient.interface, requestType := RequestType.classType
    index := 255, value := 0, request := 0x21 }

/-- A class-type, interface-recipient SetLineCoding request addressed to
the fresh handler sentinel interface 255. -/
def setLineCodingPacket : Request :=
  { recipient := Recipient.interface, requestType := RequestType.classType
    index := 255, value := 0, request := 0x20 }

/-- A class-type, interface-recipient request to the fresh handler whose
request code 0x00 is none of the three CDC ACM codes. -/
def unknownClassPacket : Request :=
  { recipient := Recipient.interface, requestType := RequestType.classType
    index := 255, value := 0, request := 0 }

/- ===== helper lemmas ===== -/

lemma stopBits_fromU8_valid (v : Nat) (h : v = 0 ∨ v = 1 ∨ v = 2) :
    ∃ sb : StopBits, StopBits.fromU8 v = Outcome.value sb ∧ sb.toU8 = v := by
  rcases h with h | h | h <;> subst h
  · exact ⟨StopBits.one, rfl, rfl⟩
  · exact ⟨StopBits.oneAndHalf, rfl, rfl⟩
  · exact ⟨StopBits.two, rfl, rfl⟩

lemma parityType_fromU8_valid (v : Nat)
    (h : v = 0 ∨ v = 1 ∨ v = 2 ∨ v = 3 ∨ v = 4) :
    ∃ pt : ParityType, ParityType.fromU8 v = Outcome.value pt ∧ pt.toU8 = v := by
  rcases h with h | h | h | h | h <;> subst h
  · exact ⟨ParityType.none, rfl, rfl⟩
  · exact ⟨ParityType.odd, rfl, rfl⟩
  · exact ⟨ParityType.even, rfl, rfl⟩
  · exact ⟨ParityType.mark, rfl, rfl⟩
  · exact ⟨ParityType.space, rfl, rfl⟩

lemma stopBits_fromU8_invalid (v : Nat) (h : ¬(v = 0 ∨ v = 1 ∨ v = 2)) :
    StopBits.fromU8 v = Outcome.panic := by
  push_neg at h
  obtain ⟨h0, h1, h2⟩ := h
  simp [StopBits.fromU8, h0, h1, h2]

lemma parityType_fromU8_invalid (v : Nat)
    (h : ¬(v = 0 ∨ v = 1 ∨ v = 2 ∨ v = 3 ∨ v = 4)) :
    ParityType.fromU8 v = Outcome.panic := by
  push_neg at h
  obtain ⟨h0, h1, h2, h3, h4⟩ := h
  simp [ParityType.fromU8, h0, h1, h2, h3, h4]

lemma cdcRequest_fromU8_unknown (v : Nat)
    (h : v ≠ 0x20 ∧ v ≠ 0x21 ∧ v ≠ 0x22) :
    CdcRequest.fromU8 v = Outcome.panic := by
  obtain ⟨h0, h1, h2⟩ := h
  simp [CdcRequest.fromU8, h0, h1, h2]

lemma u32_le_roundtrip (b0 b1 b2 b3 : Nat) (h0 : b0 < 256) (h1 : b1 < 256)
    (h2 : b2 < 256) (h3 : b3 < 256) :
    u32ToLeBytes (u32FromLeBytes b0 b1 b2 b3) = [b0, b1, b2, b3] := by
  unfold u32ToLeBytes u32FromLeBytes
  have e0 : (b0 + 256 * b1 + 65536 * b2 + 16777216 * b3) % 256 = b0 := by omega
  have e1 : (b0 + 256 * b1 + 65536 * b2 + 16777216 * b3) / 256 % 256 = b1 := by
    omega
  have e2 : (b0 + 256 * b1 + 65536 * b2 + 16777216 * b3) / 65536 % 256 = b2 := by
    omega
  have e3 :
      (b0 + 256 * b1 + 65536 * b2 + 16777216 * b3) / 16777216 % 256 = b3 := by
    omega
  rw [e0, e1, e2, e3]

lemma list_length_seven (d : List Nat) (h : d.length = 7) :
    ∃ b0 b1 b2 b3 b4 b5 b6 : Nat, d = [b0, b1, b2, b3, b4, b5, b6] := by
  rcases d with _ | ⟨b0, d⟩; · simp at h
  rcases d with _ | ⟨b1, d⟩; · simp at h
  rcases d with _ | ⟨b2, d⟩; · simp at h
  rcases d with _ | ⟨b3, d⟩; · simp at h
  rcases d with _ | ⟨b4, d⟩; · simp at h
  rcases d with _ | ⟨b5, d⟩; · simp at h
  rcases d with _ | ⟨b6, d⟩; · simp at h
  rcases d with _ | ⟨b7, d⟩
  · exact ⟨b0, b1, b2, b3, b4, b5, b6, rfl⟩
  · simp at h

/-- Round trip: a well-formed 7-byte buffer parses, and serialising the
parsed record into a fresh 7-byte buffer reproduces the buffer exactly. -/
lemma fromData_toData_roundtrip (data : List Nat) (h : wellFormed7 data) :
    ∃ e : SerialEncoding,
      SerialEncoding.fromData data = Outcome.value (some e) ∧
        SerialEncoding.toData e (List.replicate 7 0) = (data, some 7) := by
  obtain ⟨h7, hb, h4, h5⟩ := h
  obtain ⟨b0, b1, b2, b3, b4, b5, b6, rfl⟩ := list_length_seven data h7
  simp only [List.getD_cons_succ, List.getD_cons_zero] at h4 h5
  obtain ⟨sb, hsb, hsbv⟩ := stopBits_fromU8_valid b4 h4
  obtain ⟨pt, hpt, hptv⟩ := parityType_fromU8_valid b5 h5
  have hb0 : b0 < 256 := hb b0 (by simp)
  have hb1 : b1 < 256 := hb b1 (by simp)
  have hb2 : b2 < 256 := hb b2 (by simp)
  have hb3 : b3 < 256 := hb b3 (by simp)
  refine ⟨⟨u32FromLeBytes b0 b1 b2 b3, sb, pt, b6⟩, ?_, ?_⟩
  · simp [SerialEncoding.fromData, hsb, hpt]
  · simp only [SerialEncoding.toData, List.replicate, u32ToLeBytes]
    unfold u32FromLeBytes
    have e0 : (b0 + 256 * b1 + 65536 * b2 + 16777216 * b3) % 256 = b0 := by
      omega
    have e1 : (b0 + 256 * b1 + 65536 * b2 + 16777216 * b3) / 256 % 256 = b1 := by
      omega
    have e2 :
        (b0 + 256 * b1 + 65536 * b2 + 16777216 * b3) / 65536 % 256 = b2 := by
      omega
    have e3 :
        (b0 + 256 * b1 + 65536 * b2 + 16777216 * b3) / 16777216 % 256 = b3 := by
      omega
    rw [e0, e1, e2, e3]
    simp [copyInto, List.set, hsbv, hptv]

/- ===== claim theorems ===== -/

/-- Claim C1.  The claim states that a fresh pool of capacity N fails
exactly on the (N+1)-th allocation.  The source never advances the
`allocated` cursor, so on a fresh pool of capacity 1 the second allocation
also succeeds (handing out slot 0 again) and the cursor is still 0
afterwards: the capacity guard is unreachable and allocation never fails
on a fresh non-empty pool. -/
theorem C1_alloc_never_advances :
    (RcPool.new 1).alloc.1 = some 0 ∧
    ((RcPool.new 1).alloc.2).alloc.1 = some 0 ∧
    ((RcPool.new 1).alloc.2).alloc.2.allocated = 0 := by
  refine ⟨rfl, ?_, ?_⟩ <;> rfl

/-- Claim C2.  The claim states that on every poll of the join-two
combinator each not-yet-completed sub-future is polled, in particular the
second one even when the first is pending.  In the source the results are
combined with the short-circuiting Rust operator, so when `future1` polls
pending, `future2` is not polled at all: after the first poll of a fresh
`RunTwo` whose first script is pending and whose second script is
immediately ready, `future2` is still in the never-polled state, although
polling it directly would have completed it. -/
theorem C2_second_future_unpolled :
    RunTwo.poll (fun _ => (none : Option Nat)) (fun _ => (some 0 : Option Nat))
        RunTwo.new =
      ({ future1 := MaybeDone.future 1, future2 := MaybeDone.future 0 }, false) ∧
    MaybeDone.poll (fun _ => (some 0 : Option Nat)) (MaybeDone.future 0) =
      (MaybeDone.done 0, true) := ⟨rfl, rfl⟩

/-- Claim C3, counterexample.  With an exclusive borrow outstanding
(borrow counter -1), `Rc::borrow` still succeeds and returns the slot
unchanged, instead of failing or aborting; and from the unborrowed state a
shared borrow leaves the counter at 0 instead of incrementing it to 1. -/
theorem C3_shared_borrow_unchecked :
    Rc.borrow { refCount := 1, borrowCount := -1, live := true } =
      Outcome.value { refCount := 1, borrowCount := -1, live := true } ∧
    Rc.borrow { refCount := 1, borrowCount := 0, live := true } ≠
      Outcome.value { refCount := 1, borrowCount := 1, live := true } := by
  exact ⟨rfl, by decide⟩

/-- Claim C3, amended.  While an exclusive borrow is outstanding a second
exclusive borrow fails (`tryBorrowMut` errors and `borrowMut` aborts), and
releasing the exclusive borrow restores the unborrowed counter; shared
borrows, however, always succeed, are not excluded by an outstanding
exclusive borrow, and never touch the borrow counter (so two shared
borrows trivially both succeed). -/
theorem C3_borrow_discipline (s : RcInner) (h0 : s.borrowCount = 0) :
    Rc.tryBorrowMut s = some { s with borrowCount := -1 } ∧
    Rc.tryBorrowMut { s with borrowCount := -1 } = none ∧
    Rc.borrowMut { s with borrowCount := -1 } = Outcome.panic ∧
    Rc.releaseMut { s with borrowCount := -1 } = s ∧
    (∀ t : RcInner, Rc.borrow t = Outcome.value t) := by
  refine ⟨?_, ?_, ?_, ?_, fun t => rfl⟩
  · simp [Rc.tryBorrowMut, BorrowRefMut.new, h0]
  · simp [Rc.tryBorrowMut, BorrowRefMut.new]
  · simp [Rc.borrowMut, Rc.tryBorrowMut, BorrowRefMut.new]
  · simp only [Rc.releaseMut, BorrowRefMut.drop]
    cases s
    simp_all

/-- Claim C3, witness for the amended theorem at a concrete slot. -/
theorem C3_borrow_discipline_witness :
    Rc.tryBorrowMut { refCount := 1, borrowCount := 0, live := true } =
      some { refCount := 1, borrowCount := -1, live := true } ∧
    Rc.tryBorrowMut { refCount := 1, borrowCount := -1, live := true } = none ∧
    Rc.borrowMut { refCount := 1, borrowCount := -1, live := true } =
      Outcome.panic ∧
    Rc.releaseMut { refCount := 1, borrowCount := -1, live := true } =
      { refCount := 1, borrowCount := 0, live := true } ∧
    (∀ t : RcInner, Rc.borrow t = Outcome.value t) :=
  C3_borrow_discipline { refCount := 1, borrowCount := 0, live := true } rfl

/-- Claim C8.  For every control-interface number, the SerialState
notification built by the bridge is exactly the 10 bytes 0xA1, 0x20, the
little-endian word 0, the interface number as a little-endian word, the
little-endian word 2, and the constant state bitmask 3 little endian. -/
theorem C8_serial_state_message (interface : Nat) (h : interface < 65536) :
    CdcNotification.serialState.asMessage interface =
      [0xA1, 0x20, 0, 0, interface % 256, interface / 256, 2, 0, 3, 0] ∧
    (CdcNotification.serialState.asMessage interface).length = 10 := by
  have hd : interface / 256 % 256 = interface / 256 :=
    Nat.mod_eq_of_lt (by omega)
  constructor
  · simp [CdcNotification.asMessage, CdcNotification.toU8, u16ToLeBytes,
      copyInto, hd]
  · simp [CdcNotification.asMessage, CdcNotification.toU8, u16ToLeBytes,
      copyInto]

/-- Claim C8, witness at interface number 2 (with its index bound
discharged concretely). -/
theorem C8_serial_state_message_witness :
    CdcNotification.serialState.asMessage 2 =
      [0xA1, 0x20, 0, 0, 2 % 256, 2 / 256, 2, 0, 3, 0] ∧
    (CdcNotification.serialState.asMessage 2).length = 10 :=
  C8_serial_state_message 2 (by decide)

/-- Claim C9, counterexample.  At the saturated reference count (the
32-bit usize maximum) a clone aborts instead of completing, so cloning
and then dropping does not leave the count unchanged at that state. -/
theorem C9_saturation_counterexample :
    Outcome.map Rc.drop (Rc.clone (⟨2 ^ USIZE_BITS - 1, 0, true⟩ : RcInner)) ≠
      Outcome.value (⟨2 ^ USIZE_BITS - 1, 0, true⟩ : RcInner) := by
  decide

/-- Claim C9, amended.  For a slot whose reference count is at least 1 and
whose incremented count does not saturate the 32-bit counter, cloning the
handle and then dropping the clone restores the slot exactly; moreover the
payload destructor runs exactly when the count reaches zero: dropping the
last handle (count 1) kills the payload, dropping at count at least 2
leaves it alive. -/
theorem C9_clone_drop_neutral (s : RcInner) (h1 : 1 ≤ s.refCount)
    (h2 : s.refCount + 1 < 2 ^ USIZE_BITS) :
    Outcome.map Rc.drop (Rc.clone s) = Outcome.value s ∧
    (Rc.drop { s with refCount := 1 }).live = false ∧
    (∀ c : Nat, 2 ≤ c → (Rc.drop { s with refCount := c }).live = s.live) := by
  have hm : (s.refCount + 1) % 2 ^ USIZE_BITS = s.refCount + 1 :=
    Nat.mod_eq_of_lt h2
  refine ⟨?_, ?_, ?_⟩
  · have hne : ¬(s.refCount = 0) := by omega
    simp [Rc.clone, RcInner.incCount, hm, Outcome.map, Rc.drop,
      RcInner.decCount, hne]
  · simp [Rc.drop, RcInner.decCount]
  · intro c hc
    have hne : ¬(c - 1 = 0) := by omega
    simp [Rc.drop, RcInner.decCount, hne]

/-- Claim C9, witness for the amended theorem at reference count 5. -/
theorem C9_clone_drop_neutral_witness :
    Outcome.map Rc.drop
        (Rc.clone { refCount := 5, borrowCount := 0, live := true }) =
      Outcome.value { refCount := 5, borrowCount := 0, live := true } ∧
    (Rc.drop { refCount := 1, borrowCount := 0, live := true }).live = false ∧
    (∀ c : Nat, 2 ≤ c →
      (Rc.drop { refCount := c, borrowCount := 0, live := true }).live =
        true) :=
  C9_clone_drop_neutral { refCount := 5, borrowCount := 0, live := true }
    (by decide) (by decide)

/-- Claim C10.  `TransmitRequest` has no variants, so no select3 outcome
can ever be the third (transmit-channel) branch of the serving loop: every
possible select result is the first or the second branch, and a third
branch value would require an inhabitant of `TransmitRequest`. -/
theorem C10_transmit_branch_unreachable :
    ∀ e : Either3 SerialEncoding Nat TransmitRequest,
      e.isThird = false ∧ ∀ t : TransmitRequest, e ≠ Either3.third t := by
  intro e
  cases e with
  | first a => exact ⟨rfl, fun t => nomatch t⟩
  | second b => exact ⟨rfl, fun t => nomatch t⟩
  | third t => exact nomatch t

/-- Claim C4, counterexample.  A class-type, interface-recipient request
addressed to the assigned control interface whose request code is 0x00
(none of 0x20, 0x21, 0x22) makes both control callbacks halt the program
through the `CdcRequest` conversion, instead of returning not-handled. -/
theorem C4_unknown_request_halts :
    SerialHandler.control_in SerialHandlerInner.new unknownClassPacket
        (List.replicate 7 0) = Outcome.panic ∧
    SerialHandler.control_out SerialHandlerInner.new unknownClassPacket
        (List.replicate 7 0) = Outcome.panic := by
  constructor <;> decide

/-- Claim C4, amended.  Requests whose recipient is not interface, whose
type is not class, or whose index does not match the assigned control
interface are not handled (both callbacks return none and touch nothing);
but a matching class-interface request whose code is none of 0x20, 0x21,
0x22 halts the program (the request-code conversion panics) rather than
falling through. -/
theorem C4_unmatched_requests (s : SerialHandlerInner) (packet : Request)
    (data : List Nat)
    (h : packet.recipient ≠ Recipient.interface ∨
      packet.requestType ≠ RequestType.classType ∨
      packet.index ≠ s.controlInterface) :
    SerialHandler.control_in s packet data = Outcome.value (none, data) ∧
    SerialHandler.control_out s packet data = Outcome.value (none, s) ∧
    (∀ q : Request, q.recipient = Recipient.interface →
      q.requestType = RequestType.classType → q.index = s.controlInterface →
      q.request ≠ 0x20 → q.request ≠ 0x21 → q.request ≠ 0x22 →
      SerialHandler.control_in s q data = Outcome.panic ∧
      SerialHandler.control_out s q data = Outcome.panic) := by
  refine ⟨?_, ?_, ?_⟩
  · simp only [SerialHandler.control_in]
    rw [if_pos h]
  · simp only [SerialHandler.control_out]
    rw [if_pos h]
  · intro q hr ht hi h20 h21 h22
    have hfu : CdcRequest.fromU8 q.request = Outcome.panic :=
      cdcRequest_fromU8_unknown _ ⟨h20, h21, h22⟩
    have hcond : ¬(q.recipient ≠ Recipient.interface ∨
        q.requestType ≠ RequestType.classType ∨
        q.index ≠ s.controlInterface) := by
      simp [hr, ht, hi]
    constructor
    · simp only [SerialHandler.control_in]
      rw [if_neg hcond, hfu]
    · simp only [SerialHandler.control_out]
      rw [if_neg hcond, hfu]

/-- Claim C4, witness for the amended theorem: a device-recipient request
is not handled by either callback, and for the fresh handler every
matching class-interface request with an unknown code halts. -/
theorem C4_unmatched_requests_witness :
    SerialHandler.control_in SerialHandlerInner.new
        (⟨Recipient.device, RequestType.classType, 255, 0, 0x21⟩ : Request)
        [] = Outcome.value (none, []) ∧
    SerialHandler.control_out SerialHandlerInner.new
        (⟨Recipient.device, RequestType.classType, 255, 0, 0x21⟩ : Request)
        [] = Outcome.value (none, SerialHandlerInner.new) ∧
    (∀ q : Request, q.recipient = Recipient.interface →
      q.requestType = RequestType.classType →
      q.index = SerialHandlerInner.new.controlInterface →
      q.request ≠ 0x20 → q.request ≠ 0x21 → q.request ≠ 0x22 →
      SerialHandler.control_in SerialHandlerInner.new q [] = Outcome.panic ∧
      SerialHandler.control_out SerialHandlerInner.new q [] = Outcome.panic) :=
  C4_unmatched_requests SerialHandlerInner.new
    (⟨Recipient.device, RequestType.classType, 255, 0, 0x21⟩ : Request) []
    (Or.inl (by decide))

/-- Helper: a buffer of at least 7 bytes whose stop-bits byte or parity
byte is unrepresentable makes the parser halt. -/
lemma fromData_invalid_field (data : List Nat) (h7 : 7 ≤ data.length)
    (hbad : ¬(data.getD 4 0 = 0 ∨ data.getD 4 0 = 1 ∨ data.getD 4 0 = 2) ∨
      ¬(data.getD 5 0 = 0 ∨ data.getD 5 0 = 1 ∨ data.getD 5 0 = 2 ∨
        data.getD 5 0 = 3 ∨ data.getD 5 0 = 4)) :
    SerialEncoding.fromData data = Outcome.panic := by
  have hnl : ¬(data.length < 7) := by omega
  unfold SerialEncoding.fromData
  rw [if_neg hnl]
  by_cases hstop : data.getD 4 0 = 0 ∨ data.getD 4 0 = 1 ∨ data.getD 4 0 = 2
  · obtain ⟨sb, hsb, _⟩ := stopBits_fromU8_valid _ hstop
    have hpar : ¬(data.getD 5 0 = 0 ∨ data.getD 5 0 = 1 ∨ data.getD 5 0 = 2 ∨
        data.getD 5 0 = 3 ∨ data.getD 5 0 = 4) := by tauto
    rw [hsb, parityType_fromU8_invalid _ hpar]
  · rw [stopBits_fromU8_invalid _ hstop]

/-- Helper: reduction of `control_out` for a matching SetLineCoding
request, exposing the parse outcome. -/
lemma control_out_setLineCoding (s : SerialHandlerInner) (packet : Request)
    (hr : packet.recipient = Recipient.interface)
    (ht : packet.requestType = RequestType.classType)
    (hi : packet.index = s.controlInterface)
    (hq : packet.request = 0x20) (data : List Nat) :
    SerialHandler.control_out s packet data =
      match s.encodingFromData data with
      | Outcome.panic => Outcome.panic
      | Outcome.value none => Outcome.value (none, s)
      | Outcome.value (some s2) =>
        Outcome.value (some OutResponse.accepted, s2) := by
  have hcond : ¬(packet.recipient ≠ Recipient.interface ∨
      packet.requestType ≠ RequestType.classType ∨
      packet.index ≠ s.controlInterface) := by
    simp [hr, ht, hi]
  simp only [SerialHandler.control_out]
  rw [if_neg hcond, hq]
  rfl

/-- Claim C5, counterexample.  A 7-byte SetLineCoding payload whose
stop-bits byte is 3 makes the parser, and with it the control_out
callback on a matching request, halt the program instead of rejecting the
data recoverably. -/
theorem C5_invalid_field_halts :
    SerialEncoding.fromData [0, 0, 0, 0, 3, 0, 8] = Outcome.panic ∧
    SerialHandler.control_out SerialHandlerInner.new setLineCodingPacket
        [0, 0, 0, 0, 3, 0, 8] = Outcome.panic := by
  constructor <;> decide

/-- Claim C5, amended.  For a matching SetLineCoding request, a payload
shorter than 7 bytes is rejected recoverably (not handled, no halt); but
a payload of length at least 7 whose stop-bits byte is not in 0..2 or
whose parity byte is not in 0..4 halts the program instead of being
surfaced as not handled. -/
theorem C5_malformed_wire_data (s : SerialHandlerInner) (packet : Request)
    (hr : packet.recipient = Recipient.interface)
    (ht : packet.requestType = RequestType.classType)
    (hi : packet.index = s.controlInterface)
    (hq : packet.request = 0x20) :
    (∀ data : List Nat, data.length < 7 →
      SerialHandler.control_out s packet data = Outcome.value (none, s)) ∧
    (∀ data : List Nat, 7 ≤ data.length →
      (¬(data.getD 4 0 = 0 ∨ data.getD 4 0 = 1 ∨ data.getD 4 0 = 2) ∨
        ¬(data.getD 5 0 = 0 ∨ data.getD 5 0 = 1 ∨ data.getD 5 0 = 2 ∨
          data.getD 5 0 = 3 ∨ data.getD 5 0 = 4)) →
      SerialHandler.control_out s packet data = Outcome.panic) := by
  constructor
  · intro data hlen
    rw [control_out_setLineCoding s packet hr ht hi hq data]
    simp [SerialHandlerInner.encodingFromData, SerialEncoding.fromData, hlen]
  · intro data hlen hbad
    rw [control_out_setLineCoding s packet hr ht hi hq data]
    rw [show s.encodingFromData data = Outcome.panic from ?_]
    · simp [SerialHandlerInner.encodingFromData,
        fromData_invalid_field data hlen hbad]

/-- Claim C5, witness for the amended theorem on the fresh handler: a
3-byte payload is not handled; a 7-byte payload with parity byte 9
halts. -/
theorem C5_malformed_wire_data_witness :
    SerialHandler.control_out SerialHandlerInner.new setLineCodingPacket
        [1, 2, 3] = Outcome.value (none, SerialHandlerInner.new) ∧
    SerialHandler.control_out SerialHandlerInner.new setLineCodingPacket
        [0, 0, 0, 0, 0, 9, 8] = Outcome.panic :=
  ⟨(C5_malformed_wire_data SerialHandlerInner.new setLineCodingPacket
      rfl rfl rfl rfl).1 [1, 2, 3] (by decide),
    (C5_malformed_wire_data SerialHandlerInner.new setLineCodingPacket
      rfl rfl rfl rfl).2 [0, 0, 0, 0, 0, 9, 8] (by decide) (by decide)⟩

/-- Claim C6.  For a well-formed 7-byte buffer, parsing and re-serialising
reproduces the buffer exactly; every shorter buffer fails to parse with
none; and for a buffer of length at least 7 only the first 7 bytes are
consumed (the parse equals the parse of the 7-byte prefix). -/
theorem C6_encoding_roundtrip (data : List Nat) (h : wellFormed7 data) :
    (∃ e : SerialEncoding,
      SerialEncoding.fromData data = Outcome.value (some e) ∧
      SerialEncoding.toData e (List.replicate 7 0) = (data, some 7)) ∧
    (∀ d : List Nat, d.length < 7 →
      SerialEncoding.fromData d = Outcome.value none) ∧
    (∀ d : List Nat, 7 ≤ d.length →
      SerialEncoding.fromData d = SerialEncoding.fromData (d.take 7)) := by
  refine ⟨fromData_toData_roundtrip data h,
    fun d hd => by simp [SerialEncoding.fromData, hd], ?_⟩
  intro d hd
  obtain ⟨b0, b1, b2, b3, b4, b5, b6, h7⟩ :=
    list_length_seven (d.take 7) (by rw [List.length_take]; omega)
  have hsplit : d = [b0, b1, b2, b3, b4, b5, b6] ++ d.drop 7 := by
    rw [← h7, List.take_append_drop]
  rw [h7]
  conv_lhs => rw [hsplit]
  simp only [List.cons_append, List.nil_append]
  have hlen :
      ¬((b0 :: b1 :: b2 :: b3 :: b4 :: b5 :: b6 :: d.drop 7).length < 7) := by
    simp
  unfold SerialEncoding.fromData
  rw [if_neg hlen, if_neg (by simp : ¬(([b0, b1, b2, b3, b4, b5, b6] :
    List Nat).length < 7))]
  simp only [List.getD_cons_succ, List.getD_cons_zero]

/-- Claim C6, witness at a concrete well-formed buffer (9600 baud, one
stop bit, no parity, 8 data bits). -/
theorem C6_encoding_roundtrip_witness :
    (∃ e : SerialEncoding,
      SerialEncoding.fromData [128, 37, 0, 0, 0, 0, 8] =
        Outcome.value (some e) ∧
      SerialEncoding.toData e (List.replicate 7 0) =
        ([128, 37, 0, 0, 0, 0, 8], some 7)) ∧
    (∀ d : List Nat, d.length < 7 →
      SerialEncoding.fromData d = Outcome.value none) ∧
    (∀ d : List Nat, 7 ≤ d.length →
      SerialEncoding.fromData d = SerialEncoding.fromData (d.take 7)) :=
  C6_encoding_roundtrip [128, 37, 0, 0, 0, 0, 8] (by decide)

/-- Helper: pushing `getLastD` through a cons. -/
lemma getLastD_cons_shift (p : List Nat) (rest : List (List Nat))
    (d : List Nat) : (p :: rest).getLastD d = rest.getLastD p := by
  rw [List.getLastD_eq_getLast?, List.getLastD_eq_getLast?]
  cases rest with
  | nil => simp
  | cons a as =>
    rw [List.getLast?_cons_cons]
    have hs : (a :: as).getLast?.isSome := List.getLast?_isSome.mpr (by simp)
    obtain ⟨x, hx⟩ := Option.isSome_iff_exists.mp hs
    rw [hx]
    rfl

/-- Helper: reduction of `control_in` for a GetLineCoding request matching
a handler whose control interface is the sentinel 255. -/
lemma control_in_getLineCoding (s : SerialHandlerInner)
    (hci : s.controlInterface = 255) (data : List Nat) :
    SerialHandler.control_in s getLineCodingPacket data =
      Outcome.value ((s.encodingToData data).2.map
        (fun l => (s.encodingToData data).1.take l),
        (s.encodingToData data).1) := by
  have hcond : ¬(getLineCodingPacket.recipient ≠ Recipient.interface ∨
      getLineCodingPacket.requestType ≠ RequestType.classType ∨
      getLineCodingPacket.index ≠ s.controlInterface) := by
    simp [getLineCodingPacket, hci]
  simp only [SerialHandler.control_in]
  rw [if_neg hcond]
  rfl

/-- Helper: running a sequence of well-formed SetLineCoding payloads
through signal raise and loop consumption never halts, preserves the
control interface, and leaves as current encoding the record whose
serialisation is the last payload (or the starting encoding when the
sequence is empty). -/
lemma execSetLineCodings_spec (payloads : List (List Nat)) :
    ∀ (s : SerialHandlerInner) (w : List Nat),
      (∀ p ∈ payloads, wellFormed7 p) →
      SerialEncoding.toData s.encoding (List.replicate 7 0) = (w, some 7) →
      ∃ s2 : SerialHandlerInner,
        execSetLineCodings s payloads = Outcome.value s2 ∧
        s2.controlInterface = s.controlInterface ∧
        SerialEncoding.toData s2.encoding (List.replicate 7 0) =
          (payloads.getLastD w, some 7) := by
  induction payloads with
  | nil =>
    intro s w _ hs
    exact ⟨s, rfl, rfl, by simpa [List.getLastD] using hs⟩
  | cons p rest ih =>
    intro s w hw hs
    have hp : wellFormed7 p := hw p (by simp)
    obtain ⟨e, he, het⟩ := fromData_toData_roundtrip p hp
    have hrest : ∀ q ∈ rest, wellFormed7 q := fun q hq => hw q (by simp [hq])
    have hefd : s.encodingFromData p =
        Outcome.value (some { s with encodingUpdate := some e }) := by
      simp [SerialHandlerInner.encodingFromData, he]
    obtain ⟨s2, hs2, hci, henc⟩ :=
      ih { s with encoding := e, encodingUpdate := none } p hrest het
    refine ⟨s2, ?_, hci, ?_⟩
    · simp [execSetLineCodings, hefd, SerialHandlerInner.processEncodingSignal,
        hs2]
    · rw [henc, getLastD_cons_shift]

/-- Helper: the last of a list of 7-byte payloads (with a 7-byte default)
has 7 bytes. -/
lemma getLastD_length_seven (payloads : List (List Nat)) :
    ∀ dflt : List Nat, (∀ p ∈ payloads, p.length = 7) → dflt.length = 7 →
      (payloads.getLastD dflt).length = 7 := by
  induction payloads with
  | nil => intro dflt _ hd; simpa [List.getLastD] using hd
  | cons p rest ih =>
    intro dflt hw _
    rw [getLastD_cons_shift]
    exact ih p (fun q hq => hw q (by simp [hq])) (hw p (by simp))

/-- Claim C7.  After any sequence of well-formed SetLineCoding payloads
(each raised by the synchronous callback and consumed by the serving
loop), GetLineCoding into a buffer shorter than 7 bytes is not handled and
writes nothing into the buffer, while into a 7-byte buffer it accepts
exactly the last payload set, or the serialisation of the default encoding
(115200 baud, one stop bit, no parity, 8 data bits, which serialises to
0, 194, 1, 0, 0, 0, 8) when none was ever set. -/
theorem C7_get_line_coding (payloads : List (List Nat))
    (hw : ∀ p ∈ payloads, wellFormed7 p) :
    ∃ s : SerialHandlerInner,
      execSetLineCodings SerialHandlerInner.new payloads =
        Outcome.value s ∧
      (∀ data : List Nat, data.length < 7 →
        SerialHandler.control_in s getLineCodingPacket data =
          Outcome.value (none, data)) ∧
      SerialHandler.control_in s getLineCodingPacket (List.replicate 7 0) =
        Outcome.value (some (payloads.getLastD [0, 194, 1, 0, 0, 0, 8]),
          payloads.getLastD [0, 194, 1, 0, 0, 0, 8]) := by
  have hnew : SerialEncoding.toData SerialHandlerInner.new.encoding
      (List.replicate 7 0) = ([0, 194, 1, 0, 0, 0, 8], some 7) := by decide
  obtain ⟨s, hexec, hci, hbytes⟩ := execSetLineCodings_spec payloads
    SerialHandlerInner.new [0, 194, 1, 0, 0, 0, 8] hw hnew
  have hci255 : s.controlInterface = 255 := hci
  have hlast7 : (payloads.getLastD [0, 194, 1, 0, 0, 0, 8]).length = 7 :=
    getLastD_length_seven payloads [0, 194, 1, 0, 0, 0, 8]
      (fun p hp => (hw p hp).1) (by decide)
  refine ⟨s, hexec, ?_, ?_⟩
  · intro data hlen
    rw [control_in_getLineCoding s hci255 data]
    simp [SerialHandlerInner.encodingToData, SerialEncoding.toData, hlen]
  · rw [control_in_getLineCoding s hci255 (List.replicate 7 0)]
    have h1 : s.encodingToData (List.replicate 7 0) =
        (payloads.getLastD [0, 194, 1, 0, 0, 0, 8], some 7) := hbytes
    rw [h1]
    show Outcome.value
      (some ((payloads.getLastD [0, 194, 1, 0, 0, 0, 8]).take 7),
        payloads.getLastD [0, 194, 1, 0, 0, 0, 8]) = _
    rw [List.take_of_length_le (le_of_eq hlast7)]

/-- Claim C7, witness: one well-formed payload (9600 baud) is set and then
read back; the short-buffer read is not handled. -/
theorem C7_get_line_coding_witness :
    ∃ s : SerialHandlerInner,
      execSetLineCodings SerialHandlerInner.new [[128, 37, 0, 0, 0, 0, 8]] =
        Outcome.value s ∧
      (∀ data : List Nat, data.length < 7 →
        SerialHandler.control_in s getLineCodingPacket data =
          Outcome.value (none, data)) ∧
      SerialHandler.control_in s getLineCodingPacket (List.replicate 7 0) =
        Outcome.value
          (some ([[128, 37, 0, 0, 0, 0, 8]].getLastD [0, 194, 1, 0, 0, 0, 8]),
            [[128, 37, 0, 0, 0, 0, 8]].getLastD [0, 194, 1, 0, 0, 0, 8]) :=
  C7_get_line_coding [[128, 37, 0, 0, 0, 0, 8]] (by decide)
